import Mathlib

/-!
Verification development for the medallion-architecture streaming ETL
pipeline (`DLT-Eventstreaminganalytics/DLT-demo.py`).

The repository source consists of declarative Delta Live Tables
definitions: a bronze ingestion table, two row-wise silver transforms
guarded by expectations, and five windowed gold aggregations.  The
row-wise transforms and the table/expectation configuration are
embedded here directly from the source.  The execution engine that the
specification describes (ExpectationEngine, WindowAggregator,
IncrementalExecutor) is not part of the source tree, so those parts
are modelled from the specification text; each such definition is
marked `Modelled from the spec:` in its doc comment.

Conventions: timestamps are epoch seconds (`Nat`), monetary values are
`ℚ`, nullable columns are `Option`.
-/

namespace DLTPipeline

/-- A bronze-layer record: the columns selected by `bronze_events`
(source lines 26-47).  `event_id` and `amount` are `Option` because
downstream expectations and scenarios test their nullability;
`event_timestamp` likewise. -/
structure BronzeRecord where
  event_id : Option String
  user_id : Int
  session_id : String
  event_type : String
  event_timestamp : Option Nat
  page_url : String
  product_id : String
  quantity : Int
  amount : Option ℚ
  device_type : String
  country : String
  browser : String
  is_logged_in : Bool
  referrer_source : String
  deriving DecidableEq, Repr

/-- Epoch seconds to days, modelling Spark `to_date`. -/
def toDate (t : Nat) : Nat := t / 86400

/-- Hour-of-day of an epoch-second timestamp, modelling Spark `hour`. -/
def hourOf (t : Nat) : Nat := t % 86400 / 3600

/-- Spark `dayofweek`: 1 = Sunday, ..., 7 = Saturday; epoch day 0 was a
Thursday, hence the offset 4. -/
def dayOfWeek (t : Nat) : Nat := (t / 86400 + 4) % 7 + 1

/-- Spark comparison `col < x` on a nullable column: a `when` branch
fires only when the condition evaluates to true, and a comparison with
NULL is not true. -/
def ltNotNull (a : Option ℚ) (x : ℚ) : Bool :=
  match a with
  | some v => decide (v < x)
  | none => false

/-- The `amount_category` CASE chain of `silver_events_cleaned`
(source lines 81-84): `when(amount < 50, "low").when(amount < 200,
"medium").otherwise("high")`. -/
def amountCategory (a : Option ℚ) : String :=
  if ltNotNull a 50 then "low"
  else if ltNotNull a 200 then "medium"
  else "high"

/-- A `silver_events_cleaned` record: every bronze column plus the
derived columns added on source lines 70-87. -/
structure CleanRecord extends BronzeRecord where
  event_date : Option Nat
  event_hour : Option Nat
  day_of_week : Option Nat
  is_weekend : Bool
  is_purchase : Int
  has_amount : Int
  total_value : Option ℚ
  amount_category : String
  processing_time : Nat
  deriving DecidableEq, Repr

/-- The row-wise transform of `silver_events_cleaned` (source lines
66-88).  `now` is the wall-clock value read by `current_timestamp()`
on line 87; it is an explicit parameter because the transform reads it
from the environment, not from the input record. -/
def cleanRecord (b : BronzeRecord) (now : Nat) : CleanRecord :=
  { toBronzeRecord := b
    event_date := b.event_timestamp.map toDate
    event_hour := b.event_timestamp.map hourOf
    day_of_week := b.event_timestamp.map dayOfWeek
    is_weekend :=
      match b.event_timestamp.map dayOfWeek with
      | some d => decide (d = 1) || decide (d = 7)
      | none => false
    is_purchase := if b.event_type = "purchase" then 1 else 0
    has_amount := if b.amount.isSome then 1 else 0
    total_value := b.amount.map (fun a => (b.quantity : ℚ) * a)
    amount_category := amountCategory b.amount
    processing_time := now }

/-- Erase the wall-clock metadata column of a clean record, leaving
every input-derived column intact. -/
def stripClock (c : CleanRecord) : CleanRecord :=
  { c with processing_time := 0 }

/-- A `silver_events_enriched` record: every clean column plus the
enrichment columns of source lines 102-118. -/
structure EnrichedRecord extends CleanRecord where
  device_category : String
  traffic_category : String
  engagement_score : Int
  deriving DecidableEq, Repr

/-- The row-wise transform of `silver_events_enriched` (source lines
98-119). -/
def enrichRecord (c : CleanRecord) : EnrichedRecord :=
  { toCleanRecord := c
    device_category :=
      if c.device_type = "mobile" then "Mobile"
      else if c.device_type = "tablet" then "Mobile"
      else "Desktop"
    traffic_category :=
      if c.referrer_source ∈ (["google", "facebook", "instagram"] : List String) then "Paid"
      else if c.referrer_source = "direct" then "Direct"
      else "Other"
    engagement_score :=
      c.is_purchase * 10 +
        (if c.event_type = "add_to_cart" then 5 else 0) +
        (if c.event_type = "search" then 3 else 0) +
        (if c.event_type = "view" then 1 else 0) }

/-- Erase the wall-clock metadata column of an enriched record. -/
def stripClockE (e : EnrichedRecord) : EnrichedRecord :=
  { e with processing_time := 0 }

/-- Modelled from the spec: expectation enforcement policies (spec §3,
Expectation).  The source only declares expectations via the
`@dlt.expect_or_drop` decorators; the enforcement engine is not in the
source tree. -/
inductive Policy where
  | policyDrop
  | policyFail
  | policyWarn
  deriving DecidableEq, Repr

/-- Modelled from the spec: the outcome of evaluating a record against
an expectation list (spec §4.2). -/
inductive Action where
  | Passed
  | Dropped
  | Fatal
  deriving DecidableEq, Repr

/-- Modelled from the spec: a named data-quality predicate with an
enforcement policy (spec §3). -/
structure Expectation (R : Type) where
  name : String
  pred : R → Bool
  policy : Policy

/-- Modelled from the spec: `ExpectationEngine.evaluate` (spec §4.2).
Expectations are evaluated in declared order; a failed `drop` returns
`(Dropped, none)` and stops; a failed `fail` returns `(Fatal, none)`;
a failed `warn` continues; if all pass, `(Passed, some r)`. -/
def evaluate {R : Type} (es : List (Expectation R)) (r : R) : Action × Option R :=
  match es with
  | [] => (Action.Passed, some r)
  | e :: rest =>
    if e.pred r then evaluate rest r
    else
      match e.policy with
      | Policy.policyDrop => (Action.Dropped, none)
      | Policy.policyFail => (Action.Fatal, none)
      | Policy.policyWarn => evaluate rest r

/-- Modelled from the spec: the IncrementalExecutor's row-wise step for
one micro-batch (spec §4.4, step 2): a `Fatal` outcome aborts the whole
micro-batch (`none` — no partial commit), `Dropped` records are
excluded, `Passed` records are committed. -/
def runRowWise {R : Type} (es : List (Expectation R)) (rs : List R) : Option (List R) :=
  if rs.any (fun r => (evaluate es r).1 = Action.Fatal) then none
  else some (rs.filter (fun r => (evaluate es r).1 = Action.Passed))

/-- The expectations declared on `silver_events_cleaned` (source lines
58-60): all three use `@dlt.expect_or_drop`, hence policy drop. -/
def silverExpectations : List (Expectation CleanRecord) :=
  [ { name := "valid_event_id", pred := fun c => c.event_id.isSome, policy := Policy.policyDrop },
    { name := "valid_user_id", pred := fun c => decide (c.user_id > 0), policy := Policy.policyDrop },
    { name := "valid_timestamp", pred := fun c => c.event_timestamp.isSome, policy := Policy.policyDrop } ]

/-- One micro-batch of `silver_events_cleaned`: transform every bronze
record (reading the clock `now`), then enforce the declared
expectations. -/
def silverCleanTick (batch : List BronzeRecord) (now : Nat) : Option (List CleanRecord) :=
  runRowWise silverExpectations (batch.map (fun b => cleanRecord b now))

/-- One micro-batch of `silver_events_enriched`: the committed output
of `silver_events_cleaned`, enriched row-wise (the node declares no
expectations, source lines 90-119). -/
def silverEnrichedOutput (batch : List BronzeRecord) (now : Nat) : Option (List EnrichedRecord) :=
  (silverCleanTick batch now).map (fun cs => cs.map enrichRecord)

/-- Configuration of one gold table as declared in the source: its
name, the stream it reads, its tumbling-window duration in seconds
(every gold table groups by `window(col("event_timestamp"), "5
minutes")`), and the row filter applied before grouping. -/
structure GoldNode where
  name : String
  upstream : String
  duration : Nat
  inputFilter : EnrichedRecord → Bool

/-- `gold_hourly_metrics` (source lines 125-163): no row filter. -/
def goldHourlyMetrics : GoldNode :=
  { name := "gold_hourly_metrics", upstream := "silver_events_enriched",
    duration := 300, inputFilter := fun _ => true }

/-- `gold_country_performance` (source lines 165-199): no row filter. -/
def goldCountryPerformance : GoldNode :=
  { name := "gold_country_performance", upstream := "silver_events_enriched",
    duration := 300, inputFilter := fun _ => true }

/-- `gold_user_behavior` (source lines 201-242): no row filter. -/
def goldUserBehavior : GoldNode :=
  { name := "gold_user_behavior", upstream := "silver_events_enriched",
    duration := 300, inputFilter := fun _ => true }

/-- `gold_traffic_source_analysis` (source lines 244-280): no row
filter. -/
def goldTrafficSourceAnalysis : GoldNode :=
  { name := "gold_traffic_source_analysis", upstream := "silver_events_enriched",
    duration := 300, inputFilter := fun _ => true }

/-- `gold_product_performance` (source lines 282-318): filters to
`event_type IN ('view', 'add_to_cart', 'purchase')` (line 292). -/
def goldProductPerformance : GoldNode :=
  { name := "gold_product_performance", upstream := "silver_events_enriched",
    duration := 300,
    inputFilter := fun r =>
      decide (r.event_type ∈ (["view", "add_to_cart", "purchase"] : List String)) }

/-- The gold tables declared in the source, in declaration order. -/
def goldNodes : List GoldNode :=
  [goldHourlyMetrics, goldCountryPerformance, goldUserBehavior,
   goldTrafficSourceAnalysis, goldProductPerformance]

/-- Modelled from the spec: the executor's fan-out of one silver
micro-batch to every registered gold consumer (spec §4.3 fan-out,
§4.4 step 5).  The enriched output is computed once; every consumer is
handed the same list. -/
def fanOutTick (batch : List BronzeRecord) (now : Nat) : List (String × List EnrichedRecord) :=
  match silverEnrichedOutput batch now with
  | none => []
  | some out => goldNodes.map (fun g => (g.name, out))

/-- Modelled from the spec: tumbling-window assignment (spec §4.3,
step 1): `windowStart = floor(t / duration) * duration`. -/
def windowStart (t d : Nat) : Nat := t / d * d

/-- Modelled from the spec: configuration of one WindowAggregator
(spec §4.3): window duration, allowed lateness, event-time and
group-key extractors, and the per-record accumulator fold. -/
structure Aggregator (R K A : Type) where
  duration : Nat
  allowedLateness : Nat
  eventTime : R → Nat
  keyOf : R → K
  initAcc : A
  fold : A → R → A

/-- Modelled from the spec: a WindowAggregator's state (spec §4.3): the
watermark, the late-drop counter, and the open WindowStates keyed by
(window-start, group-key). -/
structure AggState (K A : Type) where
  watermark : Nat
  lateDrops : Nat
  openWindows : List ((Nat × K) × A)
  deriving Repr

/-- Update the accumulator stored under `key`, creating it from `init`
when absent. -/
def upsert {K A : Type} [DecidableEq K] (key : Nat × K) (f : A → A) (init : A) :
    List ((Nat × K) × A) → List ((Nat × K) × A)
  | [] => [(key, f init)]
  | (k, a) :: ws =>
    if k = key then (k, f a) :: ws else (k, a) :: upsert key f init ws

/-- Modelled from the spec: per-record step of the WindowAggregator
(spec §4.3, steps 1-3): assign the tumbling window; if the window is
already closed relative to the watermark, drop the record and count it
as a late drop; otherwise fold it into the window's accumulator. -/
def stepRecord {R K A : Type} [DecidableEq K] (agg : Aggregator R K A)
    (st : AggState K A) (r : R) : AggState K A :=
  if windowStart (agg.eventTime r) agg.duration + agg.duration ≤ st.watermark then
    { st with lateDrops := st.lateDrops + 1 }
  else
    { st with
        openWindows :=
          upsert (windowStart (agg.eventTime r) agg.duration, agg.keyOf r)
            (fun a => agg.fold a r) agg.initAcc st.openWindows }

/-- Modelled from the spec: watermark advance after a batch (spec §4.3,
step 4): `watermark = max(watermark, t - allowedLateness)` over every
observed event-time `t`. -/
def advanceWatermark {R K A : Type} (agg : Aggregator R K A) (w : Nat) (rs : List R) : Nat :=
  rs.foldl (fun w r => max w (agg.eventTime r - agg.allowedLateness)) w

/-- Modelled from the spec: emission and eviction (spec §4.3, step 5):
every WindowState with `windowStart + duration ≤ watermark` is emitted
and evicted; the rest stay open. -/
def closeWindows {R K A : Type} (agg : Aggregator R K A) (st : AggState K A) :
    AggState K A × List ((Nat × K) × A) :=
  ({ st with
      openWindows :=
        st.openWindows.filter (fun w => !decide (w.1.1 + agg.duration ≤ st.watermark)) },
   st.openWindows.filter (fun w => decide (w.1.1 + agg.duration ≤ st.watermark)))

/-- Modelled from the spec: one micro-batch tick of a WindowAggregator
(spec §4.3): fold every record, advance the watermark, then emit and
evict the closed windows. -/
def processBatch {R K A : Type} [DecidableEq K] (agg : Aggregator R K A)
    (st : AggState K A) (rs : List R) : AggState K A × List ((Nat × K) × A) :=
  let st1 := rs.foldl (stepRecord agg) st
  closeWindows agg { st1 with watermark := advanceWatermark agg st1.watermark rs }

/-- Spark `round(x, 2)`: round to two decimal places. -/
def round2 (q : ℚ) : ℚ := (round (q * 100) : ℤ) / 100

/-- Modelled from the spec: a bounded-memory probabilistic cardinality
sketch for `approx-distinct-count` (spec §4.3 step 3, §9): a fixed
64-bucket presence bitmap in the style of linear counting.  Updating
marks the hashed key's bucket, the estimate is the number of marked
buckets, and merging is bucket-wise union — memory is bounded by the
64 buckets and the spec's exact-set representation is explicitly
avoided. -/
structure Sketch where
  buckets : Finset (Fin 64)
  deriving DecidableEq

/-- The empty sketch: no bucket marked. -/
def Sketch.empty : Sketch := ⟨∅⟩

/-- Mark one hashed bucket in the sketch. -/
def Sketch.insert (s : Sketch) (b : Fin 64) : Sketch := ⟨Insert.insert b s.buckets⟩

/-- The cardinality estimate: the number of marked buckets. -/
def Sketch.estimate (s : Sketch) : Nat := s.buckets.card

/-- Merge two sketches of the same window across micro-batches:
bucket-wise union. -/
def Sketch.merge (s1 s2 : Sketch) : Sketch := ⟨s1.buckets ∪ s2.buckets⟩

/-- Hash an integer key into a sketch bucket. -/
def hashInt (u : Int) : Fin 64 := ⟨u.natAbs % 64, Nat.mod_lt _ (by decide)⟩

/-- Hash a string key into a sketch bucket. -/
def hashString (s : String) : Fin 64 :=
  ⟨(s.toList.map Char.toNat).sum % 64, Nat.mod_lt _ (by decide)⟩

/-- The sketch is bounded-memory: its estimate (and its bucket count)
never exceeds the fixed 64 buckets, however many keys are inserted. -/
theorem Sketch.estimate_le (s : Sketch) : s.estimate ≤ 64 := by
  have h := Finset.card_le_univ s.buckets
  simpa [Sketch.estimate] using h

/-- Sketch merge is commutative, as the spec's merge semantics
require. -/
theorem Sketch.merge_comm (s1 s2 : Sketch) : s1.merge s2 = s2.merge s1 := by
  simp [Sketch.merge, Finset.union_comm]

/-- Sketch merge is associative, as the spec's merge semantics
require. -/
theorem Sketch.merge_assoc (s1 s2 s3 : Sketch) :
    (s1.merge s2).merge s3 = s1.merge (s2.merge s3) := by
  simp [Sketch.merge, Finset.union_assoc]

/-- The `avg` accumulator-kind of the spec (§4.3 step 3): a running
sum and a running count — the average itself is never stored.  Spark
`avg` skips NULL inputs, so pushing `none` leaves both untouched. -/
structure AvgAcc where
  sum : ℚ
  count : Nat
  deriving DecidableEq

/-- The empty `avg` accumulator. -/
def AvgAcc.empty : AvgAcc := ⟨0, 0⟩

/-- Fold one (nullable) value into the `avg` accumulator. -/
def AvgAcc.push (a : AvgAcc) (v : Option ℚ) : AvgAcc :=
  match v with
  | some x => ⟨a.sum + x, a.count + 1⟩
  | none => a

/-- Emit the average at window close: the running sum over the running
count, computed only now. -/
def AvgAcc.emit (a : AvgAcc) : ℚ := a.sum / (a.count : ℚ)

/-- Accumulator of `gold_hourly_metrics` (source lines 141-149), with
the accumulator kinds fixed by the spec (§4.3 step 3): `count` keeps a
counter, `sum` a running sum (Spark `sum` skips NULLs), `avg` a
running sum and count, `approx-distinct-count` a bounded sketch. -/
structure HourlyAcc where
  eventCount : Nat
  users : Sketch
  sessions : Sketch
  purchases : ℚ
  revenueSum : ℚ
  orderValue : AvgAcc
  engagement : AvgAcc
  deriving DecidableEq

/-- The empty accumulator for a freshly opened hourly-metrics
window. -/
def initHourlyAcc : HourlyAcc :=
  { eventCount := 0, users := Sketch.empty, sessions := Sketch.empty,
    purchases := 0, revenueSum := 0,
    orderValue := AvgAcc.empty, engagement := AvgAcc.empty }

/-- Fold one enriched record into the hourly-metrics accumulator:
`count(*)`, `approx_count_distinct(user_id)`,
`approx_count_distinct(session_id)`, `sum(is_purchase)`,
`sum(total_value)`, `avg(total_value)`, `avg(engagement_score)`. -/
def foldHourly (a : HourlyAcc) (r : EnrichedRecord) : HourlyAcc :=
  { eventCount := a.eventCount + 1
    users := a.users.insert (hashInt r.user_id)
    sessions := a.sessions.insert (hashString r.session_id)
    purchases := a.purchases + (r.is_purchase : ℚ)
    revenueSum :=
      match r.total_value with
      | some v => a.revenueSum + v
      | none => a.revenueSum
    orderValue := a.orderValue.push r.total_value
    engagement := a.engagement.push (some ((r.engagement_score : ℚ))) }

/-- The aggregate row of the `.agg(...)` clause of
`gold_hourly_metrics` (source lines 141-149), before the rounding of
the `.select(...)` clause; the window bounds and the grouping keys
(event_type, device_category) are carried by the engine's window
key. -/
structure HourlyAggRow where
  event_count : Nat
  unique_users : Nat
  unique_sessions : Nat
  total_purchases : ℚ
  total_revenue : ℚ
  avg_order_value : ℚ
  avg_engagement : ℚ
  deriving DecidableEq

/-- Finalize the hourly accumulator at window emission: the averages
are computed from the running sums and counts only here. -/
def hourlyAggRow (a : HourlyAcc) : HourlyAggRow :=
  { event_count := a.eventCount
    unique_users := a.users.estimate
    unique_sessions := a.sessions.estimate
    total_purchases := a.purchases
    total_revenue := a.revenueSum
    avg_order_value := a.orderValue.emit
    avg_engagement := a.engagement.emit }

/-- The emitted row after the `.select(...)` clause of
`gold_hourly_metrics` (source lines 150-162): revenue and the two
averages are rounded to two decimals at emission. -/
structure HourlySelectRow where
  event_count : Nat
  unique_users : Nat
  unique_sessions : Nat
  total_purchases : ℚ
  total_revenue : ℚ
  avg_order_value : ℚ
  avg_engagement : ℚ
  deriving DecidableEq

/-- Apply the `.select` projection (with `round(_, 2)`) to the hourly
aggregate row. -/
def hourlySelect (g : HourlyAggRow) : HourlySelectRow :=
  { event_count := g.event_count
    unique_users := g.unique_users
    unique_sessions := g.unique_sessions
    total_purchases := g.total_purchases
    total_revenue := round2 g.total_revenue
    avg_order_value := round2 g.avg_order_value
    avg_engagement := round2 g.avg_engagement }

/-- Accumulator of `gold_country_performance` (source lines 180-187),
with the accumulator kinds fixed by the spec (§4.3 step 3). -/
structure CountryAcc where
  totalEvents : Nat
  users : Sketch
  purchases : ℚ
  revenueSum : ℚ
  avgTransaction : AvgAcc
  deriving DecidableEq

/-- The empty accumulator for a freshly opened country window. -/
def initCountryAcc : CountryAcc :=
  { totalEvents := 0, users := Sketch.empty, purchases := 0,
    revenueSum := 0, avgTransaction := AvgAcc.empty }

/-- Fold one enriched record into the country accumulator: `count(*)`,
`approx_count_distinct(user_id)`, `sum(is_purchase)`,
`sum(total_value)`, `avg(total_value)` as running sum and count. -/
def foldCountry (a : CountryAcc) (r : EnrichedRecord) : CountryAcc :=
  { totalEvents := a.totalEvents + 1
    users := a.users.insert (hashInt r.user_id)
    purchases := a.purchases + (r.is_purchase : ℚ)
    revenueSum :=
      match r.total_value with
      | some v => a.revenueSum + v
      | none => a.revenueSum
    avgTransaction := a.avgTransaction.push r.total_value }

/-- The aggregate row produced by the `.agg(...)` clause of
`gold_country_performance` (source lines 180-187), before the rounding
applied in the `.select(...)` clause. -/
structure CountryAggRow where
  total_events : Nat
  unique_users : Nat
  purchases : ℚ
  revenue : ℚ
  avg_transaction : ℚ
  conversion_rate : ℚ
  deriving DecidableEq

/-- Finalize the country accumulator into the `.agg` row at window
emission: the average is the running sum over the running count and
`conversion_rate` is `sum(is_purchase) / count(*) * 100`, both
computed here from the accumulator, never maintained during
folding. -/
def countryAggRow (a : CountryAcc) : CountryAggRow :=
  { total_events := a.totalEvents
    unique_users := a.users.estimate
    purchases := a.purchases
    revenue := a.revenueSum
    avg_transaction := a.avgTransaction.emit
    conversion_rate := a.purchases / (a.totalEvents : ℚ) * 100 }

/-- Accumulator of `gold_user_behavior` (source lines 216-225):
`count(*)`, sketches for session_id and event_type, running sums, a
running `max`, and `first` values set only when unset (spec §4.3
step 3). -/
structure UserAcc where
  totalEvents : Nat
  sessions : Sketch
  eventTypes : Sketch
  purchases : ℚ
  spentSum : ℚ
  maxEngagement : Option Int
  primaryDevice : Option String
  firstCountry : Option String
  deriving DecidableEq

/-- The empty accumulator for a freshly opened user-behavior
window. -/
def initUserAcc : UserAcc :=
  { totalEvents := 0, sessions := Sketch.empty, eventTypes := Sketch.empty,
    purchases := 0, spentSum := 0, maxEngagement := none,
    primaryDevice := none, firstCountry := none }

/-- Fold one enriched record into the user-behavior accumulator. -/
def foldUser (a : UserAcc) (r : EnrichedRecord) : UserAcc :=
  { totalEvents := a.totalEvents + 1
    sessions := a.sessions.insert (hashString r.session_id)
    eventTypes := a.eventTypes.insert (hashString r.event_type)
    purchases := a.purchases + (r.is_purchase : ℚ)
    spentSum :=
      match r.total_value with
      | some v => a.spentSum + v
      | none => a.spentSum
    maxEngagement :=
      match a.maxEngagement with
      | some m => some (max m r.engagement_score)
      | none => some r.engagement_score
    primaryDevice :=
      match a.primaryDevice with
      | some d => some d
      | none => some r.device_category
    firstCountry :=
      match a.firstCountry with
      | some c => some c
      | none => some r.country }

/-- The row of `gold_user_behavior` after its `.agg(...)` and
`.withColumn("avg_events_per_session", round(total_events / sessions,
2))` clauses (source lines 216-227); the later `.select` only renames
and rounds `total_spent`. -/
structure UserAggRow where
  total_events : Nat
  sessions : Nat
  unique_event_types : Nat
  purchases : ℚ
  total_spent : ℚ
  max_engagement : Option Int
  primary_device : Option String
  country : Option String
  avg_events_per_session : ℚ
  deriving DecidableEq

/-- Finalize the user-behavior accumulator at window emission: the
derived ratio `avg_events_per_session` is computed here from the
finalized `count(*)` and session-sketch estimate, never maintained
during folding. -/
def userAggRow (a : UserAcc) : UserAggRow :=
  { total_events := a.totalEvents
    sessions := a.sessions.estimate
    unique_event_types := a.eventTypes.estimate
    purchases := a.purchases
    total_spent := a.spentSum
    max_engagement := a.maxEngagement
    primary_device := a.primaryDevice
    country := a.firstCountry
    avg_events_per_session :=
      round2 ((a.totalEvents : ℚ) / (a.sessions.estimate : ℚ)) }

/-- Accumulator of `gold_traffic_source_analysis` (source lines
260-266). -/
structure TrafficAcc where
  totalEvents : Nat
  users : Sketch
  purchases : ℚ
  revenueSum : ℚ
  engagement : AvgAcc
  deriving DecidableEq

/-- The empty accumulator for a freshly opened traffic-source
window. -/
def initTrafficAcc : TrafficAcc :=
  { totalEvents := 0, users := Sketch.empty, purchases := 0,
    revenueSum := 0, engagement := AvgAcc.empty }

/-- Fold one enriched record into the traffic-source accumulator:
`count(*)`, `approx_count_distinct(user_id)`, `sum(is_purchase)`,
`sum(total_value)`, `avg(engagement_score)`. -/
def foldTraffic (a : TrafficAcc) (r : EnrichedRecord) : TrafficAcc :=
  { totalEvents := a.totalEvents + 1
    users := a.users.insert (hashInt r.user_id)
    purchases := a.purchases + (r.is_purchase : ℚ)
    revenueSum :=
      match r.total_value with
      | some v => a.revenueSum + v
      | none => a.revenueSum
    engagement := a.engagement.push (some ((r.engagement_score : ℚ))) }

/-- The aggregate row of the `.agg(...)` clause of
`gold_traffic_source_analysis` (source lines 260-266), before the
rounding of the `.select(...)` clause. -/
structure TrafficAggRow where
  total_events : Nat
  unique_users : Nat
  purchases : ℚ
  revenue : ℚ
  avg_engagement : ℚ
  conversion_rate : ℚ
  deriving DecidableEq

/-- Finalize the traffic-source accumulator at window emission: the
average and `conversion_rate = sum(is_purchase) / count(*) * 100` are
computed here from the accumulator. -/
def trafficAggRow (a : TrafficAcc) : TrafficAggRow :=
  { total_events := a.totalEvents
    unique_users := a.users.estimate
    purchases := a.purchases
    revenue := a.revenueSum
    avg_engagement := a.engagement.emit
    conversion_rate := a.purchases / (a.totalEvents : ℚ) * 100 }

/-- The emitted row after the `.select(...)` clause of
`gold_traffic_source_analysis` (source lines 267-279). -/
structure TrafficSelectRow where
  total_events : Nat
  unique_users : Nat
  purchases : ℚ
  revenue : ℚ
  avg_engagement : ℚ
  conversion_rate_pct : ℚ
  deriving DecidableEq

/-- Apply the `.select` projection (with `round(_, 2)`) to the
traffic-source aggregate row. -/
def trafficSelect (g : TrafficAggRow) : TrafficSelectRow :=
  { total_events := g.total_events
    unique_users := g.unique_users
    purchases := g.purchases
    revenue := round2 g.revenue
    avg_engagement := round2 g.avg_engagement
    conversion_rate_pct := round2 g.conversion_rate }

/-- Accumulator of `gold_product_performance` (source lines 299-304);
its input was pre-filtered to view/add_to_cart/purchase events. -/
structure ProductAcc where
  eventCount : Nat
  users : Sketch
  quantitySum : Int
  valueSum : ℚ
  deriving DecidableEq

/-- The empty accumulator for a freshly opened product window. -/
def initProductAcc : ProductAcc :=
  { eventCount := 0, users := Sketch.empty, quantitySum := 0, valueSum := 0 }

/-- Fold one enriched record into the product accumulator:
`count(*)`, `approx_count_distinct(user_id)`, `sum(quantity)`,
`sum(total_value)`. -/
def foldProduct (a : ProductAcc) (r : EnrichedRecord) : ProductAcc :=
  { eventCount := a.eventCount + 1
    users := a.users.insert (hashInt r.user_id)
    quantitySum := a.quantitySum + r.quantity
    valueSum :=
      match r.total_value with
      | some v => a.valueSum + v
      | none => a.valueSum }

/-- The row of `gold_product_performance` after its `.agg(...)` and
`.withColumn("avg_value_per_event", round(total_value / event_count,
2))` clauses (source lines 299-306); the later `.select` only renames
and rounds `total_value`. -/
structure ProductAggRow where
  event_count : Nat
  unique_users : Nat
  total_quantity : Int
  total_value : ℚ
  avg_value_per_event : ℚ
  deriving DecidableEq

/-- Finalize the product accumulator at window emission: the derived
ratio `avg_value_per_event` is computed here from the finalized sums,
never maintained during folding. -/
def productAggRow (a : ProductAcc) : ProductAggRow :=
  { event_count := a.eventCount
    unique_users := a.users.estimate
    total_quantity := a.quantitySum
    total_value := a.valueSum
    avg_value_per_event := round2 (a.valueSum / (a.eventCount : ℚ)) }

/-- The emitted row after the `.select(...)` clause of
`gold_country_performance` (source lines 188-198): the monetary and
ratio fields are rounded to two decimals at emission. -/
structure CountryOutRow where
  total_events : Nat
  unique_users : Nat
  purchases : ℚ
  revenue : ℚ
  avg_transaction : ℚ
  conversion_rate_pct : ℚ
  deriving DecidableEq, Repr

/-- Apply the `.select` projection (with `round(_, 2)`) to the
aggregate row. -/
def countrySelect (g : CountryAggRow) : CountryOutRow :=
  { total_events := g.total_events
    unique_users := g.unique_users
    purchases := g.purchases
    revenue := round2 g.revenue
    avg_transaction := round2 g.avg_transaction
    conversion_rate_pct := round2 g.conversion_rate }

/-- The full `gold_country_performance` aggregator over the engine of
§4.3, keyed by country.  The source declares no `withWatermark`, so the
allowed lateness is a configuration parameter of the modelled engine. -/
def goldCountryAgg (lateness : Nat) : Aggregator EnrichedRecord String CountryAcc :=
  { duration := 300
    allowedLateness := lateness
    eventTime := fun r => r.event_timestamp.getD 0
    keyOf := fun r => r.country
    initAcc := initCountryAcc
    fold := foldCountry }

/-- A representative bronze record with every validated column
populated. -/
def sampleBronze : BronzeRecord :=
  { event_id := some "e-1", user_id := 7, session_id := "session_3",
    event_type := "purchase", event_timestamp := some 1000,
    page_url := "/page/4", product_id := "prod_9", quantity := 2,
    amount := some 100, device_type := "mobile", country := "US",
    browser := "Chrome", is_logged_in := true, referrer_source := "google" }

/-- Scenario A input, null-amount variant: a purchase event whose
`amount` is NULL. -/
def scenarioBronzeNull : BronzeRecord := { sampleBronze with amount := none }

/-- Scenario A input, ordinary variant: a purchase event with a
non-null `amount`. -/
def scenarioBronzeOk : BronzeRecord := sampleBronze

/-- Scenario A micro-batch: 100 purchase records, 5 of them with
`amount = None`. -/
def scenarioBatch : List BronzeRecord :=
  List.replicate 5 scenarioBronzeNull ++ List.replicate 95 scenarioBronzeOk

/-- The expectation list of Scenario A: the declared silver
expectations with `valid_timestamp` enforced under the `fail` policy
(spec §8, Scenario A) and no expectation on `amount`. -/
def scenarioAExpectations : List (Expectation CleanRecord) :=
  [ { name := "valid_event_id", pred := fun c => c.event_id.isSome, policy := Policy.policyDrop },
    { name := "valid_user_id", pred := fun c => decide (c.user_id > 0), policy := Policy.policyDrop },
    { name := "valid_timestamp", pred := fun c => c.event_timestamp.isSome, policy := Policy.policyFail } ]

/-- The silver micro-batch of Scenario A, processed at wall-clock 0. -/
def scenarioTick : Option (List CleanRecord) :=
  runRowWise scenarioAExpectations (scenarioBatch.map (fun b => cleanRecord b 0))

/-- A minimal counting aggregator over bare timestamps, used to
instantiate the generic engine theorems on concrete inputs. -/
def countAgg : Aggregator Nat Unit Nat :=
  { duration := 300, allowedLateness := 60, eventTime := fun t => t,
    keyOf := fun _ => (), initAcc := 0, fold := fun a _ => a + 1 }

/-! Helper lemmas about the engine and the accumulators. -/

/-- Evaluation outcome depends only on the predicate values: two
records on which every expectation's predicate agrees get the same
action. -/
theorem evaluate_fst_congr {R : Type} (es : List (Expectation R)) (c1 c2 : R)
    (h : ∀ e ∈ es, e.pred c1 = e.pred c2) :
    (evaluate es c1).1 = (evaluate es c2).1 := by
  induction es with
  | nil => rfl
  | cons e rest ih =>
    have he : e.pred c1 = e.pred c2 := h e (List.mem_cons_self e rest)
    have hr : ∀ e' ∈ rest, e'.pred c1 = e'.pred c2 :=
      fun e' h' => h e' (List.mem_cons_of_mem e h')
    by_cases hp : e.pred c1 = true
    · rw [evaluate, evaluate, if_pos hp, if_pos (he ▸ hp)]
      exact ih hr
    · rw [evaluate, evaluate, if_neg hp, if_neg (he ▸ hp)]
      cases e.policy
      · rfl
      · rfl
      · exact ih hr

/-- `stepRecord` never changes the watermark. -/
theorem stepRecord_watermark {R K A : Type} [DecidableEq K] (agg : Aggregator R K A)
    (st : AggState K A) (r : R) : (stepRecord agg st r).watermark = st.watermark := by
  unfold stepRecord
  split <;> rfl

/-- Folding a whole batch record-by-record never changes the
watermark. -/
theorem foldl_stepRecord_watermark {R K A : Type} [DecidableEq K] (agg : Aggregator R K A)
    (rs : List R) (st : AggState K A) :
    (rs.foldl (stepRecord agg) st).watermark = st.watermark := by
  induction rs generalizing st with
  | nil => rfl
  | cons r rs ih => rw [List.foldl_cons, ih, stepRecord_watermark]

/-- The watermark-advance rule never lowers the watermark. -/
theorem le_advanceWatermark {R K A : Type} (agg : Aggregator R K A)
    (rs : List R) (w : Nat) : w ≤ advanceWatermark agg w rs := by
  unfold advanceWatermark
  induction rs generalizing w with
  | nil => exact le_refl w
  | cons r rs ih => exact le_trans (le_max_left _ _) (ih _)

/-- Running total events of the country accumulator over a batch. -/
theorem foldCountry_totalEvents (rs : List EnrichedRecord) (a : CountryAcc) :
    (rs.foldl foldCountry a).totalEvents = a.totalEvents + rs.length := by
  induction rs generalizing a with
  | nil => rfl
  | cons r rs ih =>
    rw [List.foldl_cons, ih]
    simp [foldCountry]
    omega

/-- Running purchase sum of the country accumulator over a batch. -/
theorem foldCountry_purchases (rs : List EnrichedRecord) (a : CountryAcc) :
    (rs.foldl foldCountry a).purchases
      = a.purchases + (rs.map (fun r => ((r.is_purchase : ℚ)))).sum := by
  induction rs generalizing a with
  | nil => simp
  | cons r rs ih =>
    rw [List.foldl_cons, ih]
    simp [foldCountry]
    ring

/-- A some-valued `filterMap` is a `map`. -/
theorem filterMap_some_eq_map {α β : Type} (f : α → β) (l : List α) :
    l.filterMap (fun x => some (f x)) = l.map f := by
  induction l with
  | nil => rfl
  | cons x xs ih => simp [List.filterMap_cons, ih]

/-- The `avg(total_value)` accumulator of `gold_country_performance`
after a batch holds exactly the running sum and running count of the
non-null `total_value` inputs. -/
theorem foldCountry_avgTransaction (rs : List EnrichedRecord) (a : CountryAcc) :
    (rs.foldl foldCountry a).avgTransaction
      = AvgAcc.mk (a.avgTransaction.sum + (rs.filterMap (fun r => r.total_value)).sum)
          (a.avgTransaction.count + (rs.filterMap (fun r => r.total_value)).length) := by
  induction rs generalizing a with
  | nil => simp
  | cons r rs ih =>
    rw [List.foldl_cons, ih]
    cases hv : r.total_value
    · simp [foldCountry, AvgAcc.push, List.filterMap_cons, hv]
    · simp only [foldCountry, AvgAcc.push, hv, List.filterMap_cons, List.sum_cons,
        List.length_cons, AvgAcc.mk.injEq]
      constructor
      · ring
      · omega

/-- The `avg(total_value)` accumulator of `gold_hourly_metrics` after
a batch holds exactly the running sum and count of the non-null
`total_value` inputs. -/
theorem foldHourly_orderValue (rs : List EnrichedRecord) (a : HourlyAcc) :
    (rs.foldl foldHourly a).orderValue
      = AvgAcc.mk (a.orderValue.sum + (rs.filterMap (fun r => r.total_value)).sum)
          (a.orderValue.count + (rs.filterMap (fun r => r.total_value)).length) := by
  induction rs generalizing a with
  | nil => simp
  | cons r rs ih =>
    rw [List.foldl_cons, ih]
    cases hv : r.total_value
    · simp [foldHourly, AvgAcc.push, List.filterMap_cons, hv]
    · simp only [foldHourly, AvgAcc.push, hv, List.filterMap_cons, List.sum_cons,
        List.length_cons, AvgAcc.mk.injEq]
      constructor
      · ring
      · omega

/-- The `avg(engagement_score)` accumulator of `gold_hourly_metrics`
after a batch holds exactly the running engagement sum and the record
count (engagement_score is never NULL). -/
theorem foldHourly_engagement (rs : List EnrichedRecord) (a : HourlyAcc) :
    (rs.foldl foldHourly a).engagement
      = AvgAcc.mk (a.engagement.sum + (rs.map (fun r => ((r.engagement_score : ℚ)))).sum)
          (a.engagement.count + rs.length) := by
  induction rs generalizing a with
  | nil => simp
  | cons r rs ih =>
    rw [List.foldl_cons, ih]
    simp only [foldHourly, AvgAcc.push, List.map_cons, List.sum_cons,
      List.length_cons, AvgAcc.mk.injEq]
    constructor
    · ring
    · omega

/-- The `avg(engagement_score)` accumulator of
`gold_traffic_source_analysis` after a batch holds exactly the running
engagement sum and the record count. -/
theorem foldTraffic_engagement (rs : List EnrichedRecord) (a : TrafficAcc) :
    (rs.foldl foldTraffic a).engagement
      = AvgAcc.mk (a.engagement.sum + (rs.map (fun r => ((r.engagement_score : ℚ)))).sum)
          (a.engagement.count + rs.length) := by
  induction rs generalizing a with
  | nil => simp
  | cons r rs ih =>
    rw [List.foldl_cons, ih]
    simp only [foldTraffic, AvgAcc.push, List.map_cons, List.sum_cons,
      List.length_cons, AvgAcc.mk.injEq]
    constructor
    · ring
    · omega

/-- Running record count of the traffic-source accumulator. -/
theorem foldTraffic_totalEvents (rs : List EnrichedRecord) (a : TrafficAcc) :
    (rs.foldl foldTraffic a).totalEvents = a.totalEvents + rs.length := by
  induction rs generalizing a with
  | nil => rfl
  | cons r rs ih =>
    rw [List.foldl_cons, ih]
    simp [foldTraffic]
    omega

/-- Running purchase sum of the traffic-source accumulator. -/
theorem foldTraffic_purchases (rs : List EnrichedRecord) (a : TrafficAcc) :
    (rs.foldl foldTraffic a).purchases
      = a.purchases + (rs.map (fun r => ((r.is_purchase : ℚ)))).sum := by
  induction rs generalizing a with
  | nil => simp
  | cons r rs ih =>
    rw [List.foldl_cons, ih]
    simp [foldTraffic]
    ring

/-- Running record count of the user-behavior accumulator. -/
theorem foldUser_totalEvents (rs : List EnrichedRecord) (a : UserAcc) :
    (rs.foldl foldUser a).totalEvents = a.totalEvents + rs.length := by
  induction rs generalizing a with
  | nil => rfl
  | cons r rs ih =>
    rw [List.foldl_cons, ih]
    simp [foldUser]
    omega

/-- Running record count of the product accumulator. -/
theorem foldProduct_eventCount (rs : List EnrichedRecord) (a : ProductAcc) :
    (rs.foldl foldProduct a).eventCount = a.eventCount + rs.length := by
  induction rs generalizing a with
  | nil => rfl
  | cons r rs ih =>
    rw [List.foldl_cons, ih]
    simp [foldProduct]
    omega

/-- Running `sum(total_value)` of the product accumulator: the sum of
the non-null `total_value` inputs. -/
theorem foldProduct_valueSum (rs : List EnrichedRecord) (a : ProductAcc) :
    (rs.foldl foldProduct a).valueSum
      = a.valueSum + (rs.filterMap (fun r => r.total_value)).sum := by
  induction rs generalizing a with
  | nil => simp
  | cons r rs ih =>
    rw [List.foldl_cons, ih]
    cases hv : r.total_value
    · simp [foldProduct, List.filterMap_cons, hv]
    · simp [foldProduct, List.filterMap_cons, hv]
      ring

/-- Stripping the clock from a cleaned record yields the record cleaned
at clock zero: every other column is computed from the input alone. -/
theorem stripClock_cleanRecord (b : BronzeRecord) (t : Nat) :
    stripClock (cleanRecord b t) = cleanRecord b 0 := rfl

/-- Enrichment commutes with erasing the clock column. -/
theorem stripClockE_enrich (c : CleanRecord) :
    stripClockE (enrichRecord c) = enrichRecord (stripClock c) := rfl

/-- The silver expectations read only input-derived columns, so their
verdicts do not depend on the processing clock. -/
theorem silverPred_clock (b : BronzeRecord) (t1 t2 : Nat) :
    ∀ e ∈ silverExpectations, e.pred (cleanRecord b t1) = e.pred (cleanRecord b t2) := by
  intro e he
  simp only [silverExpectations, List.mem_cons, List.not_mem_nil, or_false] at he
  rcases he with h | h | h <;> subst h <;> rfl

/-- Both the fatal-abort test and the stripped committed output of the
silver micro-batch are independent of the processing clock. -/
theorem silverTick_clock_aux (batch : List BronzeRecord) (t1 t2 : Nat) :
    ((batch.map (fun b => cleanRecord b t1)).any
        (fun r => (evaluate silverExpectations r).1 = Action.Fatal))
      = ((batch.map (fun b => cleanRecord b t2)).any
        (fun r => (evaluate silverExpectations r).1 = Action.Fatal)) ∧
    ((batch.map (fun b => cleanRecord b t1)).filter
        (fun r => (evaluate silverExpectations r).1 = Action.Passed)).map stripClock
      = ((batch.map (fun b => cleanRecord b t2)).filter
        (fun r => (evaluate silverExpectations r).1 = Action.Passed)).map stripClock := by
  induction batch with
  | nil => exact ⟨rfl, rfl⟩
  | cons b bs ih =>
    have hact : (evaluate silverExpectations (cleanRecord b t1)).1
        = (evaluate silverExpectations (cleanRecord b t2)).1 :=
      evaluate_fst_congr silverExpectations _ _ (silverPred_clock b t1 t2)
    constructor
    · simp only [List.map_cons, List.any_cons, hact, ih.1]
    · simp only [List.map_cons, List.filter_cons, hact]
      split
      · simp only [List.map_cons, ih.2, stripClock_cleanRecord]
      · exact ih.2

/-- C1 counterexample: the transform of `silver_events_cleaned` is not
a pure function of its input record — replaying the same record at a
different wall-clock instant changes the committed `processing_time`
column (source line 87), so replay is not bit-for-bit. -/
theorem silver_clean_not_clock_pure :
    cleanRecord sampleBronze 0 ≠ cleanRecord sampleBronze 1 := by
  intro h
  have h2 := congrArg CleanRecord.processing_time h
  simp [cleanRecord] at h2

/-- C1 (amended): re-running a silver micro-batch from the same offset
with identical input commits bit-for-bit identical output in every
column except `processing_time`, which records the wall clock: with
that column erased, both the `silver_events_cleaned` and the
`silver_events_enriched` committed outputs of two replays coincide,
whatever the two wall-clock instants were. -/
theorem replay_identical_modulo_clock (batch : List BronzeRecord) (t1 t2 : Nat) :
    Option.map (List.map stripClock) (silverCleanTick batch t1)
      = Option.map (List.map stripClock) (silverCleanTick batch t2) ∧
    Option.map (List.map stripClockE) (silverEnrichedOutput batch t1)
      = Option.map (List.map stripClockE) (silverEnrichedOutput batch t2) := by
  obtain ⟨hany, hfil⟩ := silverTick_clock_aux batch t1 t2
  have part1 : Option.map (List.map stripClock) (silverCleanTick batch t1)
      = Option.map (List.map stripClock) (silverCleanTick batch t2) := by
    unfold silverCleanTick runRowWise
    by_cases hc : ((batch.map (fun b => cleanRecord b t2)).any
        (fun r => (evaluate silverExpectations r).1 = Action.Fatal)) = true
    · rw [if_pos (hany ▸ hc), if_pos hc]
    · rw [if_neg (fun hh => hc (hany ▸ hh)), if_neg hc]
      simpa using hfil
  refine ⟨part1, ?_⟩
  have key : ∀ t : Nat, Option.map (List.map stripClockE) (silverEnrichedOutput batch t)
      = Option.map (List.map enrichRecord)
          (Option.map (List.map stripClock) (silverCleanTick batch t)) := by
    intro t
    unfold silverEnrichedOutput
    cases silverCleanTick batch t with
    | none => rfl
    | some l =>
      simp [List.map_map, Function.comp_def, stripClockE_enrich]
  rw [key t1, key t2, part1]

/-- C1 witness: a concrete replay of a one-record batch at two distinct
wall-clock instants commits the same clock-stripped output. -/
theorem replay_identical_modulo_clock_witness :
    Option.map (List.map stripClock) (silverCleanTick [sampleBronze] 0)
      = Option.map (List.map stripClock) (silverCleanTick [sampleBronze] 5) :=
  (replay_identical_modulo_clock [sampleBronze] 0 5).1

/-- C2: watermark monotonicity — across any micro-batch tick of any
windowed node, the watermark never decreases: the engine advances it
with `max(watermark, t - allowedLateness)` over the observed
event-times. -/
theorem watermark_monotone {R K A : Type} [DecidableEq K] (agg : Aggregator R K A)
    (st : AggState K A) (rs : List R) :
    st.watermark ≤ (processBatch agg st rs).1.watermark := by
  have h1 : (processBatch agg st rs).1.watermark
      = advanceWatermark agg (rs.foldl (stepRecord agg) st).watermark rs := rfl
  rw [h1, foldl_stepRecord_watermark]
  exact le_advanceWatermark agg rs st.watermark

/-- C2 witness: a concrete tick of the counting aggregator from
watermark 10 does not lower the watermark. -/
theorem watermark_monotone_witness :
    (AggState.mk 10 0 ([] : List ((Nat × Unit) × Nat))).watermark
      ≤ (processBatch countAgg (AggState.mk 10 0 []) [400]).1.watermark :=
  watermark_monotone countAgg (AggState.mk 10 0 []) [400]

/-- C3: no window re-opens — once a WindowState was emitted and evicted
(its window start satisfied `windowStart + duration ≤ watermark` at
eviction time), any record arriving at a later tick whose event-time
maps to that window is dropped and counted in the late-drop counter;
the open windows are left untouched, so the closed window is never
re-aggregated into. -/
theorem no_window_reopen {R K A : Type} [DecidableEq K] (agg : Aggregator R K A)
    (st st' : AggState K A) (s : Nat) (k : K) (a : A) (r : R)
    (hevict : ((s, k), a) ∈ (closeWindows agg st).2)
    (hmono : st.watermark ≤ st'.watermark)
    (hmap : windowStart (agg.eventTime r) agg.duration = s) :
    stepRecord agg st' r = { st' with lateDrops := st'.lateDrops + 1 } := by
  have h2 : ((s, k), a) ∈ st.openWindows.filter
      (fun w => decide (w.1.1 + agg.duration ≤ st.watermark)) := hevict
  have hclosed : s + agg.duration ≤ st.watermark := by
    have := (List.mem_filter.mp h2).2
    simpa using this
  unfold stepRecord
  rw [hmap, if_pos (le_trans hclosed hmono)]

/-- C3 witness: with the counting aggregator, the window starting at 0
is evicted at watermark 400, and a record with event-time 100 arriving
at a later state is dropped into the late-drop counter. -/
theorem no_window_reopen_witness :
    ((0, ()), 3) ∈ (closeWindows countAgg (AggState.mk 400 0 [((0, ()), 3)])).2 ∧
    stepRecord countAgg (AggState.mk 400 1 []) 100
      = AggState.mk 400 2 ([] : List ((Nat × Unit) × Nat)) :=
  ⟨by decide,
   no_window_reopen countAgg (AggState.mk 400 0 [((0, ()), 3)]) (AggState.mk 400 1 [])
     0 () 3 100 (by decide) (by decide) (by decide)⟩

/-- C4 counterexample: the pipeline does not declare six gold tables —
it declares exactly these five, so the claim's "six gold tables" is
false of the source. -/
theorem gold_tables_are_five_not_six :
    goldNodes.map (fun g => g.name)
      = ["gold_hourly_metrics", "gold_country_performance", "gold_user_behavior",
         "gold_traffic_source_analysis", "gold_product_performance"] ∧
    goldNodes.length ≠ 6 :=
  ⟨rfl, by decide⟩

/-- C4 (amended): fan-out consistency over the five gold tables — each
of the five gold tables reads `silver_events_enriched`, and for any
micro-batch the enriched output is computed once and every downstream
consumer is handed exactly that same list of records. -/
theorem fanout_consistency (batch : List BronzeRecord) (now : Nat)
    (out : List EnrichedRecord) (h : silverEnrichedOutput batch now = some out) :
    goldNodes.length = 5 ∧
    goldNodes.map (fun g => g.upstream) = List.replicate 5 "silver_events_enriched" ∧
    (fanOutTick batch now).map Prod.snd = List.replicate 5 out := by
  refine ⟨rfl, rfl, ?_⟩
  unfold fanOutTick
  rw [h]
  rfl

/-- C4 witness: the empty micro-batch is computed once and handed
unchanged to all five gold consumers. -/
theorem fanout_consistency_witness :
    silverEnrichedOutput [] 0 = some [] ∧
    (fanOutTick [] 0).map Prod.snd = List.replicate 5 ([] : List EnrichedRecord) :=
  ⟨rfl, (fanout_consistency [] 0 [] rfl).2.2⟩

/-- C5: expectation ordering — when every expectation before a failing
`drop` expectation passes, evaluation returns `(Dropped, none)`
regardless of what comes after it; in particular a later `fail`
expectation, even one the record also violates, is never evaluated and
its action never applies. -/
theorem expectation_ordering {R : Type} (es1 : List (Expectation R))
    (e : Expectation R) (rest : List (Expectation R)) (r : R)
    (hbefore : ∀ e' ∈ es1, e'.pred r = true)
    (hfail : e.pred r = false) (hdrop : e.policy = Policy.policyDrop) :
    evaluate (es1 ++ e :: rest) r = (Action.Dropped, none) := by
  induction es1 with
  | nil =>
    rw [List.nil_append, evaluate, if_neg (by simp [hfail]), hdrop]
  | cons e0 es ih =>
    have h0 := hbefore e0 (List.mem_cons_self e0 es)
    rw [List.cons_append, evaluate, if_pos h0]
    exact ih (fun e' h' => hbefore e' (List.mem_cons_of_mem e0 h'))

/-- A `drop`-policy expectation requiring a nonzero value. -/
def expDropNonzero : Expectation Int :=
  { name := "nonzero", pred := fun n => decide (n ≠ 0), policy := Policy.policyDrop }

/-- A later `fail`-policy expectation requiring a value above five. -/
def expFatalBig : Expectation Int :=
  { name := "big", pred := fun n => decide (n > 5), policy := Policy.policyFail }

/-- C5 witness: the record 0 violates both the `drop` expectation and
the later `fail` expectation, and is dropped — the `fail` action never
applies. -/
theorem expectation_ordering_witness :
    expDropNonzero.pred 0 = false ∧ expFatalBig.pred 0 = false ∧
    evaluate [expDropNonzero, expFatalBig] 0 = (Action.Dropped, none) :=
  ⟨by decide, by decide,
   expectation_ordering [] expDropNonzero [expFatalBig] 0
     (by simp) (by decide) rfl⟩

/-- C6: tumbling-window assignment — for a positive duration `d`, a
record with event-time `t` is assigned the window starting at
`floor(t / d) * d`; that start is a multiple of `d`, its window
contains `t`, and it is the only multiple of `d` whose length-`d`
window contains `t` (windows are fixed-size and non-overlapping);
moreover every gold table declared in the source uses `d = 300`
seconds (5 minutes). -/
theorem tumbling_window_assignment (t d : Nat) (hd : 0 < d) :
    d ∣ windowStart t d ∧ windowStart t d ≤ t ∧ t < windowStart t d + d ∧
    (∀ s : Nat, d ∣ s → s ≤ t → t < s + d → s = windowStart t d) ∧
    (∀ g ∈ goldNodes, g.duration = 300) := by
  refine ⟨⟨t / d, Nat.mul_comm (t / d) d⟩, Nat.div_mul_le_self t d,
    Nat.lt_div_mul_add hd, ?_, ?_⟩
  · intro s hdvd hle hlt
    obtain ⟨q, hq⟩ := hdvd
    subst hq
    have hq1 : q * d ≤ t := by rwa [Nat.mul_comm] at hle
    have hq2 : t < (q + 1) * d := by
      rw [Nat.succ_mul, Nat.mul_comm q d]
      exact hlt
    unfold windowStart
    rw [Nat.div_eq_of_lt_le hq1 hq2, Nat.mul_comm]
  · intro g hg
    simp only [goldNodes, List.mem_cons, List.not_mem_nil, or_false] at hg
    rcases hg with h | h | h | h | h <;> subst h <;> rfl

/-- C6 witness: event-time 700 with the gold tables' 5-minute windows
is assigned the window starting at 600. -/
theorem tumbling_window_assignment_witness :
    300 ∣ windowStart 700 300 ∧ windowStart 700 300 ≤ 700 ∧
    700 < windowStart 700 300 + 300 :=
  ⟨(tumbling_window_assignment 700 300 (by decide)).1,
   (tumbling_window_assignment 700 300 (by decide)).2.1,
   (tumbling_window_assignment 700 300 (by decide)).2.2.1⟩

/-- C7: emission-time finalization for every windowed node — over any
micro-batch folded into a gold window, every `avg` accumulator
(`avg_order_value` and `avg_engagement` of gold_hourly_metrics,
`avg_transaction` of gold_country_performance, `avg_engagement` of
gold_traffic_source_analysis) holds exactly a running sum and a
running count during folding (never the average itself), and the
emitted average is that sum over that count, computed only at
emission; likewise every derived ratio field — `conversion_rate` of
gold_country_performance and gold_traffic_source_analysis (purchase
sum over record count times 100), `avg_events_per_session` of
gold_user_behavior (record count over session estimate) and
`avg_value_per_event` of gold_product_performance (value sum over
record count) — is computed at emission time from the finalized
accumulators, and the rounded `select` columns are derived from those
finalized values. -/
theorem emission_time_finalization (rs : List EnrichedRecord) :
    (rs.foldl foldHourly initHourlyAcc).orderValue
      = AvgAcc.mk (rs.filterMap (fun r => r.total_value)).sum
          (rs.filterMap (fun r => r.total_value)).length ∧
    (rs.foldl foldHourly initHourlyAcc).engagement
      = AvgAcc.mk (rs.map (fun r => ((r.engagement_score : ℚ)))).sum rs.length ∧
    (hourlyAggRow (rs.foldl foldHourly initHourlyAcc)).avg_order_value
      = (rs.filterMap (fun r => r.total_value)).sum
          / ((rs.filterMap (fun r => r.total_value)).length : ℚ) ∧
    (hourlyAggRow (rs.foldl foldHourly initHourlyAcc)).avg_engagement
      = (rs.map (fun r => ((r.engagement_score : ℚ)))).sum / (rs.length : ℚ) ∧
    (hourlySelect (hourlyAggRow (rs.foldl foldHourly initHourlyAcc))).avg_order_value
      = round2 ((hourlyAggRow (rs.foldl foldHourly initHourlyAcc)).avg_order_value) ∧
    (hourlySelect (hourlyAggRow (rs.foldl foldHourly initHourlyAcc))).avg_engagement
      = round2 ((hourlyAggRow (rs.foldl foldHourly initHourlyAcc)).avg_engagement) ∧
    (rs.foldl foldCountry initCountryAcc).avgTransaction
      = AvgAcc.mk (rs.filterMap (fun r => r.total_value)).sum
          (rs.filterMap (fun r => r.total_value)).length ∧
    (countryAggRow (rs.foldl foldCountry initCountryAcc)).avg_transaction
      = (rs.filterMap (fun r => r.total_value)).sum
          / ((rs.filterMap (fun r => r.total_value)).length : ℚ) ∧
    (countryAggRow (rs.foldl foldCountry initCountryAcc)).conversion_rate
      = (rs.map (fun r => ((r.is_purchase : ℚ)))).sum / (rs.length : ℚ) * 100 ∧
    (countrySelect (countryAggRow (rs.foldl foldCountry initCountryAcc))).avg_transaction
      = round2 ((countryAggRow (rs.foldl foldCountry initCountryAcc)).avg_transaction) ∧
    (countrySelect (countryAggRow (rs.foldl foldCountry initCountryAcc))).conversion_rate_pct
      = round2 ((countryAggRow (rs.foldl foldCountry initCountryAcc)).conversion_rate) ∧
    (rs.foldl foldUser initUserAcc).totalEvents = rs.length ∧
    (userAggRow (rs.foldl foldUser initUserAcc)).avg_events_per_session
      = round2 ((rs.length : ℚ)
          / (((rs.foldl foldUser initUserAcc).sessions.estimate : ℚ))) ∧
    (rs.foldl foldTraffic initTrafficAcc).engagement
      = AvgAcc.mk (rs.map (fun r => ((r.engagement_score : ℚ)))).sum rs.length ∧
    (trafficAggRow (rs.foldl foldTraffic initTrafficAcc)).avg_engagement
      = (rs.map (fun r => ((r.engagement_score : ℚ)))).sum / (rs.length : ℚ) ∧
    (trafficAggRow (rs.foldl foldTraffic initTrafficAcc)).conversion_rate
      = (rs.map (fun r => ((r.is_purchase : ℚ)))).sum / (rs.length : ℚ) * 100 ∧
    (trafficSelect (trafficAggRow (rs.foldl foldTraffic initTrafficAcc))).avg_engagement
      = round2 ((trafficAggRow (rs.foldl foldTraffic initTrafficAcc)).avg_engagement) ∧
    (trafficSelect (trafficAggRow (rs.foldl foldTraffic initTrafficAcc))).conversion_rate_pct
      = round2 ((trafficAggRow (rs.foldl foldTraffic initTrafficAcc)).conversion_rate) ∧
    (rs.foldl foldProduct initProductAcc).eventCount = rs.length ∧
    (rs.foldl foldProduct initProductAcc).valueSum
      = (rs.filterMap (fun r => r.total_value)).sum ∧
    (productAggRow (rs.foldl foldProduct initProductAcc)).avg_value_per_event
      = round2 ((rs.filterMap (fun r => r.total_value)).sum / (rs.length : ℚ)) := by
  have hOV : (rs.foldl foldHourly initHourlyAcc).orderValue
      = AvgAcc.mk (rs.filterMap (fun r => r.total_value)).sum
          (rs.filterMap (fun r => r.total_value)).length := by
    rw [foldHourly_orderValue]
    simp [initHourlyAcc, AvgAcc.empty]
  have hHE : (rs.foldl foldHourly initHourlyAcc).engagement
      = AvgAcc.mk (rs.map (fun r => ((r.engagement_score : ℚ)))).sum rs.length := by
    rw [foldHourly_engagement]
    simp [initHourlyAcc, AvgAcc.empty]
  have hCA : (rs.foldl foldCountry initCountryAcc).avgTransaction
      = AvgAcc.mk (rs.filterMap (fun r => r.total_value)).sum
          (rs.filterMap (fun r => r.total_value)).length := by
    rw [foldCountry_avgTransaction]
    simp [initCountryAcc, AvgAcc.empty]
  have hCp : (rs.foldl foldCountry initCountryAcc).purchases
      = (rs.map (fun r => ((r.is_purchase : ℚ)))).sum := by
    rw [foldCountry_purchases]
    simp [initCountryAcc]
  have hCt : (rs.foldl foldCountry initCountryAcc).totalEvents = rs.length := by
    rw [foldCountry_totalEvents]
    simp [initCountryAcc]
  have hU : (rs.foldl foldUser initUserAcc).totalEvents = rs.length := by
    rw [foldUser_totalEvents]
    simp [initUserAcc]
  have hTE : (rs.foldl foldTraffic initTrafficAcc).engagement
      = AvgAcc.mk (rs.map (fun r => ((r.engagement_score : ℚ)))).sum rs.length := by
    rw [foldTraffic_engagement]
    simp [initTrafficAcc, AvgAcc.empty]
  have hTp : (rs.foldl foldTraffic initTrafficAcc).purchases
      = (rs.map (fun r => ((r.is_purchase : ℚ)))).sum := by
    rw [foldTraffic_purchases]
    simp [initTrafficAcc]
  have hTt : (rs.foldl foldTraffic initTrafficAcc).totalEvents = rs.length := by
    rw [foldTraffic_totalEvents]
    simp [initTrafficAcc]
  have hPc : (rs.foldl foldProduct initProductAcc).eventCount = rs.length := by
    rw [foldProduct_eventCount]
    simp [initProductAcc]
  have hPv : (rs.foldl foldProduct initProductAcc).valueSum
      = (rs.filterMap (fun r => r.total_value)).sum := by
    rw [foldProduct_valueSum]
    simp [initProductAcc]
  refine ⟨hOV, hHE, ?_, ?_, rfl, rfl, hCA, ?_, ?_, rfl, rfl, hU, ?_, hTE, ?_, ?_,
    rfl, rfl, hPc, hPv, ?_⟩
  · simp only [hourlyAggRow]
    rw [hOV]
    rfl
  · simp only [hourlyAggRow]
    rw [hHE]
    rfl
  · simp only [countryAggRow]
    rw [hCA]
    rfl
  · simp only [countryAggRow]
    rw [hCp, hCt]
  · simp only [userAggRow]
    rw [hU]
  · simp only [trafficAggRow]
    rw [hTE]
    rfl
  · simp only [trafficAggRow]
    rw [hTp, hTt]
  · simp only [productAggRow]
    rw [hPv, hPc]

/-- C7 witness: on a concrete one-record batch the hourly
`avg(total_value)` accumulator holds exactly the running sum and count
of its non-null inputs. -/
theorem emission_time_finalization_witness :
    ([enrichRecord (cleanRecord sampleBronze 0)].foldl foldHourly initHourlyAcc).orderValue
      = AvgAcc.mk
          ([enrichRecord (cleanRecord sampleBronze 0)].filterMap (fun r => r.total_value)).sum
          ([enrichRecord (cleanRecord sampleBronze 0)].filterMap (fun r => r.total_value)).length :=
  (emission_time_finalization [enrichRecord (cleanRecord sampleBronze 0)]).1

/-- When every record of a micro-batch passes every expectation, the
row-wise step commits the whole batch unchanged. -/
theorem runRowWise_all_passed {R : Type} (es : List (Expectation R)) (rs : List R)
    (h : ∀ r ∈ rs, (evaluate es r).1 = Action.Passed) :
    runRowWise es rs = some rs := by
  have hfat : rs.any (fun r => (evaluate es r).1 = Action.Fatal) = false := by
    rw [List.any_eq_false]
    intro r hr
    simp [h r hr]
  have hfil : rs.filter (fun r => (evaluate es r).1 = Action.Passed) = rs :=
    List.filter_eq_self.mpr (fun r hr => by simp [h r hr])
  unfold runRowWise
  rw [hfil]
  simp [hfat]

/-- Every record of the Scenario A batch is one of its two record
shapes. -/
theorem scenarioBatch_mem (b : BronzeRecord) (hb : b ∈ scenarioBatch) :
    b = scenarioBronzeNull ∨ b = scenarioBronzeOk := by
  unfold scenarioBatch at hb
  rcases List.mem_append.mp hb with h | h
  · exact Or.inl (List.eq_of_mem_replicate h)
  · exact Or.inr (List.eq_of_mem_replicate h)

/-- Filtering a replicated list by a predicate the element satisfies
keeps the whole list. -/
theorem filter_replicate_of_pos {α : Type} (n : Nat) (a : α) (p : α → Bool)
    (h : p a = true) : (List.replicate n a).filter p = List.replicate n a :=
  List.filter_eq_self.mpr (fun _ hx => (List.eq_of_mem_replicate hx) ▸ h)

/-- Filtering a replicated list by a predicate the element fails gives
the empty list. -/
theorem filter_replicate_of_neg {α : Type} (n : Nat) (a : α) (p : α → Bool)
    (h : p a = false) : (List.replicate n a).filter p = [] :=
  List.filter_eq_nil_iff.mpr (fun x hx => by
    rw [List.eq_of_mem_replicate hx, h]
    exact Bool.false_ne_true)

/-- C8: Scenario A — when the source emits 100 purchase records of
which 5 have a NULL `amount`, and the expectations are the declared
identifier and timestamp checks (with `valid_timestamp` under the
`fail` policy) and none on `amount`, the silver node commits all 100
records, and the derived `has_amount` column is 0 for exactly the 5
NULL-amount records. -/
theorem scenario_a_commits_all :
    scenarioTick = some (scenarioBatch.map (fun b => cleanRecord b 0)) ∧
    (scenarioBatch.map (fun b => cleanRecord b 0)).length = 100 ∧
    ((scenarioBatch.map (fun b => cleanRecord b 0)).filter
        (fun c => c.has_amount = 0)).length = 5 ∧
    ∀ c ∈ scenarioBatch.map (fun b => cleanRecord b 0),
      (c.has_amount = 0 ↔ c.amount = none) := by
  refine ⟨?_, ?_, ?_, ?_⟩
  · apply runRowWise_all_passed
    intro r hr
    obtain ⟨b, hb, rfl⟩ := List.mem_map.mp hr
    rcases scenarioBatch_mem b hb with h | h <;> subst h <;> rfl
  · simp [scenarioBatch]
  · have hsplit : scenarioBatch.map (fun b => cleanRecord b 0)
        = List.replicate 5 (cleanRecord scenarioBronzeNull 0)
          ++ List.replicate 95 (cleanRecord scenarioBronzeOk 0) := by
      simp [scenarioBatch]
    rw [hsplit, List.filter_append,
      filter_replicate_of_pos 5 _ _ (by decide),
      filter_replicate_of_neg 95 _ _ (by decide)]
    simp
  · intro c hc
    obtain ⟨b, hb, rfl⟩ := List.mem_map.mp hc
    rcases scenarioBatch_mem b hb with h | h <;> subst h <;> decide

/-- C9: for a NULL `amount`, both CASE conditions `amount < 50` and
`amount < 200` evaluate to NULL (not true), so the record falls to the
`otherwise` branch and is categorized "high" — never "low" or
"medium" — while `has_amount` is 0 for the very same record. -/
theorem null_amount_category_high (b : BronzeRecord) (t : Nat) (h : b.amount = none) :
    (cleanRecord b t).amount_category = "high" ∧
    (cleanRecord b t).has_amount = 0 ∧
    (cleanRecord b t).amount_category ≠ "low" ∧
    (cleanRecord b t).amount_category ≠ "medium" := by
  refine ⟨?_, ?_, ?_, ?_⟩ <;>
    simp [cleanRecord, amountCategory, ltNotNull, h]

/-- C9 witness: the concrete NULL-amount purchase record is categorized
"high" with `has_amount = 0`. -/
theorem null_amount_category_high_witness :
    scenarioBronzeNull.amount = none ∧
    (cleanRecord scenarioBronzeNull 0).amount_category = "high" ∧
    (cleanRecord scenarioBronzeNull 0).has_amount = 0 ∧
    (cleanRecord scenarioBronzeNull 0).amount_category ≠ "low" ∧
    (cleanRecord scenarioBronzeNull 0).amount_category ≠ "medium" :=
  ⟨rfl, null_amount_category_high scenarioBronzeNull 0 rfl⟩

/-- C10: `gold_product_performance` aggregates only view, add_to_cart
and purchase events — a click, search or logout record never passes
its input filter; every record that does pass has one of the three
retained event types; and every other gold table's input keeps the
whole upstream batch. -/
theorem product_performance_event_filter (r : EnrichedRecord) (rs : List EnrichedRecord)
    (h : r.event_type = "click" ∨ r.event_type = "search" ∨ r.event_type = "logout") :
    r ∉ rs.filter goldProductPerformance.inputFilter ∧
    (∀ x ∈ rs.filter goldProductPerformance.inputFilter,
      x.event_type ∈ (["view", "add_to_cart", "purchase"] : List String)) ∧
    ∀ g ∈ goldNodes, g.name ≠ "gold_product_performance" → rs.filter g.inputFilter = rs := by
  refine ⟨?_, ?_, ?_⟩
  · intro hmem
    have hp : r.event_type ∈ (["view", "add_to_cart", "purchase"] : List String) := by
      have := (List.mem_filter.mp hmem).2
      simpa [goldProductPerformance] using this
    rcases h with h | h | h <;> rw [h] at hp <;> exact absurd hp (by decide)
  · intro x hx
    have := (List.mem_filter.mp hx).2
    simpa [goldProductPerformance] using this
  · intro g hg hname
    simp only [goldNodes, List.mem_cons, List.not_mem_nil, or_false] at hg
    rcases hg with h' | h' | h' | h' | h'
    · subst h'
      simp [goldHourlyMetrics]
    · subst h'
      simp [goldCountryPerformance]
    · subst h'
      simp [goldUserBehavior]
    · subst h'
      simp [goldTrafficSourceAnalysis]
    · subst h'
      exact absurd rfl hname

/-- A concrete enriched click record. -/
def clickEnriched : EnrichedRecord :=
  enrichRecord (cleanRecord { sampleBronze with event_type := "click" } 0)

/-- C10 witness: the concrete click record is excluded from
`gold_product_performance`'s input while the other gold tables keep
the whole batch. -/
theorem product_performance_event_filter_witness :
    clickEnriched.event_type = "click" ∧
    clickEnriched ∉ [clickEnriched].filter goldProductPerformance.inputFilter ∧
    ∀ g ∈ goldNodes, g.name ≠ "gold_product_performance" →
      [clickEnriched].filter g.inputFilter = [clickEnriched] :=
  ⟨rfl,
   (product_performance_event_filter clickEnriched [clickEnriched] (Or.inl rfl)).1,
   (product_performance_event_filter clickEnriched [clickEnriched] (Or.inl rfl)).2.2⟩

end DLTPipeline
